import Mathlib

/-!
# Verification of the Hatch MCP host-configuration core

A shallow embedding of `src/hatch/mcp_host_config/` (models.py, strategies.py,
host_management.py).  Python dictionaries are modelled as insertion-ordered
association lists, JSON values as an inductive type, exceptions as
`Except String`, and the filesystem / backup-manager environment as an
explicit `World` record threaded through the manager operations.
-/

set_option autoImplicit false

namespace Hatch

/-! ## JSON values and Python-dict association lists -/

/-- A parsed JSON value (`json.load` result).  Numbers are modelled as `Int`;
no claim in scope touches fractional numbers. -/
inductive Json where
  | str (s : String)
  | num (n : Int)
  | jbool (b : Bool)
  | null
  | arr (xs : List Json)
  | obj (kvs : List (String × Json))

/-- Content of a host configuration file on disk: either text that
`json.load` rejects, or a parsed JSON value. -/
inductive JFile where
  | corrupt
  | val (j : Json)

/-- First-match lookup in an association list (Python `d[k]` / `d.get(k)`;
real dicts have unique keys, so first-match equals the dict lookup). -/
def dictGet? {α : Type} {β : Type} [DecidableEq α] : List (α × β) → α → Option β
  | [], _ => none
  | (k, v) :: rest, k₀ => if k = k₀ then some v else dictGet? rest k₀

/-- Python `d.get(k, dflt)`. -/
def dictGetD {α : Type} {β : Type} [DecidableEq α] (d : List (α × β)) (k : α) (dflt : β) : β :=
  (dictGet? d k).getD dflt

/-- Python `k in d`. -/
def dictHasKey {α : Type} {β : Type} [DecidableEq α] (d : List (α × β)) (k : α) : Bool :=
  (dictGet? d k).isSome

/-- Python `d[k] = v` on a dict: replace in place when the key is present,
append at the end when it is new (insertion order preserved). -/
def dictSet {α : Type} {β : Type} [DecidableEq α] : List (α × β) → α → β → List (α × β)
  | [], k, v => [(k, v)]
  | (k₀, v₀) :: rest, k, v =>
    if k₀ = k then (k, v) :: dictSet rest k v else (k₀, v₀) :: dictSet rest k v

/-- Python `del d[k]`. -/
def dictDel {α : Type} {β : Type} [DecidableEq α] : List (α × β) → α → List (α × β)
  | [], _ => []
  | (k₀, v₀) :: rest, k =>
    if k₀ = k then dictDel rest k else (k₀, v₀) :: dictDel rest k

theorem dictGet?_set_self {α β : Type} [DecidableEq α] (d : List (α × β)) (k : α) (v : β) :
    dictGet? (dictSet d k v) k = some v := by
  induction d with
  | nil => simp [dictSet, dictGet?]
  | cons p rest ih =>
    obtain ⟨k₀, v₀⟩ := p
    by_cases h : k₀ = k <;> simp [dictSet, dictGet?, h, ih]

theorem dictGet?_set_ne {α β : Type} [DecidableEq α] (d : List (α × β)) (k k' : α) (v : β)
    (h : k' ≠ k) : dictGet? (dictSet d k v) k' = dictGet? d k' := by
  have h' : ¬ (k = k') := fun hh => h hh.symm
  induction d with
  | nil => simp [dictSet, dictGet?, h']
  | cons p rest ih =>
    obtain ⟨k₀, v₀⟩ := p
    by_cases h₀ : k₀ = k
    · subst h₀
      simp [dictSet, dictGet?, h', ih]
    · simp [dictSet, dictGet?, h₀, ih]

/-! ## MCPServerConfig (models.py lines 29–107) -/

/-- The validated `MCPServerConfig` pydantic model.  Extra (unknown) fields are
allowed by the model (`extra = "allow"`) but carried opaquely; no code in scope
reads them back, so they are not modelled. -/
structure MCPServerConfig where
  name : Option String := none
  command : Option String := none
  args : Option (List String) := none
  env : Option (List (String × String)) := none
  url : Option String := none
  headers : Option (List (String × String)) := none
deriving DecidableEq, Repr

/-- ASCII whitespace, the characters `str.strip()` removes in the inputs in
scope. -/
def isSpaceChar (c : Char) : Bool :=
  c = ' ' || c = '\t' || c = '\n' || c = '\r' || c = '\x0b' || c = '\x0c'

/-- Python `s.strip()` (model: drop whitespace at both ends). -/
def pyStrip (s : String) : String :=
  ⟨((s.data.dropWhile isSpaceChar).reverse.dropWhile isSpaceChar).reverse⟩

/-- `xs` starts with `ps`. -/
def listStartsWith : List Char → List Char → Bool
  | _, [] => true
  | [], _ :: _ => false
  | c :: cs, p :: ps => c = p && listStartsWith cs ps

/-- Python `s.startswith(p)`. -/
def pyStartsWith (s p : String) : Bool :=
  listStartsWith s.data p.data

/-- Python truthiness of an optional string (`None` and `""` are falsy). -/
def optStrTruthy : Option String → Bool
  | none => false
  | some s => !(s = "")

/-- `validate_command_not_empty` (models.py 58–64): reject a provided command
that is empty after stripping, and return it stripped otherwise. -/
def validateCommandField : Option String → Except String (Option String)
  | none => .ok none
  | some v =>
    if pyStrip v = "" then .error "Command cannot be empty"
    else .ok (some (pyStrip v))

/-- `validate_url_format` (models.py 66–73). -/
def validateUrlField : Option String → Except String (Option String)
  | none => .ok none
  | some v =>
    if pyStartsWith v "http://" || pyStartsWith v "https://" then .ok (some v)
    else .error "URL must start with http:// or https://"

/-- Construction of `MCPServerConfig`: pydantic runs the per-field validators
first (during field validation) and the two `mode='after'` model validators
afterwards (`validate_server_type`, models.py 44–56, and
`validate_field_combinations`, models.py 75–90).  The relative order of the two
model validators only affects which message is reported when several rules are
violated, never whether construction succeeds. -/
def MCPServerConfig.build (name command : Option String) (args : Option (List String))
    (env : Option (List (String × String))) (url : Option String)
    (headers : Option (List (String × String))) : Except String MCPServerConfig :=
  match validateCommandField command with
  | .error e => .error e
  | .ok command =>
    match validateUrlField url with
    | .error e => .error e
    | .ok url =>
      if !optStrTruthy command && !optStrTruthy url then
        .error "Either 'command' (local server) or 'url' (remote server) must be provided"
      else if optStrTruthy command && optStrTruthy url then
        .error "Cannot specify both 'command' and 'url' - choose local or remote server"
      else if args.isSome && command.isNone then
        .error "'args' can only be specified with 'command' for local servers"
      else if env.isSome && command.isNone then
        .error "'env' can only be specified with 'command' for local servers"
      else if headers.isSome && url.isNone then
        .error "'headers' can only be specified with 'url' for remote servers"
      else
        .ok { name := name, command := command, args := args, env := env,
              url := url, headers := headers }

example :
    MCPServerConfig.build (some "weather") (some " /usr/bin/python3 ") none none none none =
      .ok { name := some "weather", command := some "/usr/bin/python3" } := by
  rfl

example : (MCPServerConfig.build none none none none (some "ftp://x") none).isOk = false := by
  decide

example : (MCPServerConfig.build none (some "  ") none none none none).isOk = false := by
  decide

example : (MCPServerConfig.build none (some "x") none none (some "http://y") none).isOk = false := by
  decide

example : (MCPServerConfig.build none none (some ["a"]) none (some "http://y") none).isOk = false := by
  decide

/-! ## Host types and strategies (models.py 19–26, strategies.py) -/

/-- `MCPHostType` (models.py 19–26). -/
inductive HostType where
  | claude_desktop
  | claude_code
  | vscode
  | cursor
  | lmstudio
  | gemini
deriving DecidableEq, Repr

/-- The `.value` string of each `MCPHostType` member. -/
def hostValue : HostType → String
  | .claude_desktop => "claude-desktop"
  | .claude_code => "claude-code"
  | .vscode => "vscode"
  | .cursor => "cursor"
  | .lmstudio => "lmstudio"
  | .gemini => "gemini"

/-- `MCPHostType(hostname)`: CPython's enum value lookup; an unknown value
raises `ValueError: '<hostname>' is not a valid MCPHostType`. -/
def hostTypeOfString (hostname : String) : Except String HostType :=
  if hostname = "claude-desktop" then .ok .claude_desktop
  else if hostname = "claude-code" then .ok .claude_code
  else if hostname = "vscode" then .ok .vscode
  else if hostname = "cursor" then .ok .cursor
  else if hostname = "lmstudio" then .ok .lmstudio
  else if hostname = "gemini" then .ok .gemini
  else .error ("'" ++ hostname ++ "' is not a valid MCPHostType")

/-- The registry after `strategies.py` has been imported (the package
`__init__` always imports it): strategies in decorator-execution order.
`MCPHostRegistry.detect_available_hosts` iterates `_strategies` in this
(insertion) order. -/
def registeredHosts : List HostType :=
  [.claude_desktop, .claude_code, .cursor, .lmstudio, .vscode, .gemini]

/-- `get_config_key` of each strategy: VS Code uses `"servers"`
(strategies.py 324–326), every other host `"mcpServers"`. -/
def configKey : HostType → String
  | .vscode => "servers"
  | _ => "mcpServers"

/-- `pathlib.Path.is_absolute()` on a POSIX platform. -/
def posixIsAbsolute (s : String) : Bool :=
  pyStartsWith s "/"

/-- `validate_server_config` of the strategy registered for each host type
(strategies.py 32–38, 165–172, 341–343, 432–435).  The Claude branch tests
Python truthiness of `command` (`if server_config.command:`); the Cursor/LM
Studio branch tests truthiness of `command` then of `url`; VS Code and Gemini
test `is not None`. -/
def validate_server_config : HostType → MCPServerConfig → Bool
  | .claude_desktop, sc | .claude_code, sc =>
    if optStrTruthy sc.command then posixIsAbsolute (sc.command.getD "") else true
  | .cursor, sc | .lmstudio, sc =>
    optStrTruthy sc.command || optStrTruthy sc.url
  | .vscode, sc | .gemini, sc =>
    sc.command.isSome || sc.url.isSome

/-! ## Serialization and parsing of server entries -/

/-- One optional field of `model_dump(exclude_none=True)`. -/
def optEntry (k : String) : Option Json → List (String × Json)
  | none => []
  | some j => [(k, j)]

/-- `MCPServerConfig.model_dump(exclude_none=True)`: the model's fields in
declaration order, omitting the `None` ones. -/
def MCPServerConfig.model_dump (c : MCPServerConfig) : Json :=
  .obj (optEntry "name" (c.name.map .str) ++
        optEntry "command" (c.command.map .str) ++
        optEntry "args" (c.args.map (fun xs => .arr (xs.map .str))) ++
        optEntry "env" (c.env.map (fun kvs => .obj (kvs.map (fun p => (p.1, .str p.2))))) ++
        optEntry "url" (c.url.map .str) ++
        optEntry "headers" (c.headers.map (fun kvs => .obj (kvs.map (fun p => (p.1, .str p.2))))))

/-- Pydantic decoding of an `Optional[str]` field. -/
def decodeOptStr : Option Json → Except String (Option String)
  | none => .ok none
  | some .null => .ok none
  | some (.str s) => .ok (some s)
  | some _ => .error "Input should be a valid string"

def decodeStrListAux : List Json → Except String (List String)
  | [] => .ok []
  | .str s :: rest => (decodeStrListAux rest).map (s :: ·)
  | _ => .error "Input should be a valid string"

/-- Pydantic decoding of an `Optional[List[str]]` field. -/
def decodeOptStrList : Option Json → Except String (Option (List String))
  | none | some .null => .ok none
  | some (.arr xs) => (decodeStrListAux xs).map some
  | some _ => .error "Input should be a valid list"

def decodeStrPairsAux : List (String × Json) → Except String (List (String × String))
  | [] => .ok []
  | (k, .str v) :: rest => (decodeStrPairsAux rest).map ((k, v) :: ·)
  | _ => .error "Input should be a valid string"

/-- Pydantic decoding of an `Optional[Dict[str, str]]` field. -/
def decodeOptStrMap : Option Json → Except String (Option (List (String × String)))
  | none | some .null => .ok none
  | some (.obj kvs) => (decodeStrPairsAux kvs).map some
  | some _ => .error "Input should be a valid dictionary"

/-- `MCPServerConfig(**server_data)` on a JSON entry: decode the six known
fields (unknown extras are allowed and carried opaquely), then run the model's
validators.  Pydantic interleaves per-field decoding and per-field validators;
decoding everything first changes at most which message is reported, never
whether construction succeeds. -/
def parseServerEntry : Json → Except String MCPServerConfig
  | .obj kvs => do
    let name ← decodeOptStr (dictGet? kvs "name")
    let command ← decodeOptStr (dictGet? kvs "command")
    let args ← decodeOptStrList (dictGet? kvs "args")
    let env ← decodeOptStrMap (dictGet? kvs "env")
    let url ← decodeOptStr (dictGet? kvs "url")
    let headers ← decodeOptStrMap (dictGet? kvs "headers")
    MCPServerConfig.build name command args env url headers
  | _ => .error "server entry is not a mapping"

/-! ## HostConfiguration (models.py 230–260) -/

/-- `HostConfiguration`: the in-memory map of server name → config.  Keys are
`Option String` because `MCPHostConfigurationManager.configure_server` inserts
`server_config.name`, which may be `None` (Python dict keys need not be
strings). -/
structure HostConfiguration where
  servers : List (Option String × MCPServerConfig) := []
deriving Repr

/-- `HostConfiguration.add_server` (models.py 246–248): dict item assignment. -/
def HostConfiguration.add_server (c : HostConfiguration) (n : Option String)
    (cfg : MCPServerConfig) : HostConfiguration :=
  ⟨dictSet c.servers n cfg⟩

/-- `HostConfiguration.remove_server` (models.py 250–255). -/
def HostConfiguration.remove_server (c : HostConfiguration) (n : Option String) :
    Bool × HostConfiguration :=
  if dictHasKey c.servers n then (true, ⟨dictDel c.servers n⟩) else (false, c)

/-- `json.dump` stringifies a `None` dictionary key as `"null"`. -/
def pyDictKey : Option String → String
  | some s => s
  | none => "null"

/-- The `servers_dict` built by every `write_configuration`
(e.g. strategies.py 94–97): `model_dump(exclude_none=True)` of each server,
as it ends up in the JSON file. -/
def serializeServers (c : HostConfiguration) : Json :=
  .obj (c.servers.map (fun p => (pyDictKey p.1, p.2.model_dump)))

/-! ## Per-host filesystem state and read/write (strategies.py) -/

/-- What a strategy can observe of its configuration file:
whether `get_config_path()` returned a path, and the file (if any). -/
structure HostFS where
  pathKnown : Bool
  file : Option JFile

/-- One iteration of the entry-parsing loop of `read_configuration`: a valid
entry is inserted under its name, an invalid one is skipped. -/
def parseStep (acc : List (Option String × MCPServerConfig)) (p : String × Json) :
    List (Option String × MCPServerConfig) :=
  match parseServerEntry p.2 with
  | .ok cfg => dictSet acc (some p.1) cfg
  | .error _ => acc

/-- `read_configuration`, common to every strategy
(strategies.py 47–73, 193–219, 345–371, 437–463; the four bodies are
identical up to `get_config_key`):
an unknown path or missing file yields an empty `HostConfiguration`;
a file `json.load` rejects, a non-object top level, or a non-object root-key
value raises inside the `try` and also yields an empty configuration;
otherwise each entry is parsed, and entries failing `MCPServerConfig`
validation are skipped (logged warning, `continue`). -/
def read_configuration_with (key : String) (fs : HostFS) : HostConfiguration :=
  if fs.pathKnown = false then ⟨[]⟩
  else
    match fs.file with
    | none => ⟨[]⟩
    | some .corrupt => ⟨[]⟩
    | some (.val (.obj kvs)) =>
      match dictGetD kvs key (.obj []) with
      | .obj entries => ⟨entries.foldl parseStep []⟩
      | _ => ⟨[]⟩
    | some (.val _) => ⟨[]⟩

/-- `read_configuration` of the strategy registered for `ht`. -/
def read_configuration (ht : HostType) (fs : HostFS) : HostConfiguration :=
  read_configuration_with (configKey ht) fs

/-- `write_configuration`, common shape of every strategy
(strategies.py 75–112, 221–258, 373–410, 465–514): no path → `False`;
re-read the current on-disk file (unparseable text → start from `{}`;
a parseable non-object makes the root-key assignment raise → `False`, file
untouched); set the managed root key to the serialized server map; write the
temp file and atomically rename.  `io_ok` abstracts success of the filesystem
operations (and, for Gemini, of the read-back verification); on failure the
original file is unchanged.  The Claude family routes the root-key assignment
through `_preserve_claude_settings` (strategies.py 40–45: `dict.copy()` then
item assignment), which is the same map update. -/
def write_configuration_with (key : String) (fs : HostFS) (io_ok : Bool)
    (cfg : HostConfiguration) : Bool × HostFS :=
  if fs.pathKnown = false then (false, fs)
  else
    let existing? : Option (List (String × Json)) :=
      match fs.file with
      | none => some []
      | some .corrupt => some []
      | some (.val (.obj kvs)) => some kvs
      | some (.val _) => none
    match existing? with
    | none => (false, fs)
    | some kvs =>
      if io_ok then
        (true, { fs with file := some (.val (.obj (dictSet kvs key (serializeServers cfg)))) })
      else (false, fs)

/-- `write_configuration` of the strategy registered for `ht`. -/
def write_configuration (ht : HostType) (fs : HostFS) (io_ok : Bool)
    (cfg : HostConfiguration) : Bool × HostFS :=
  write_configuration_with (configKey ht) fs io_ok cfg

/-! ## Manager environment and result types
(models.py 263–299, host_management.py 119–309) -/

/-- The environment a `MCPHostConfigurationManager` call runs in: per-host
filesystem state, whether a write's I/O succeeds, whether a backup manager is
present (`self.backup_manager` truthiness), and the backup outcome —
`some p` models `create_backup` returning success with `backup_path = p`,
`none` models a failed backup (non-fatal).  The backup module itself is not
under `src/`; only its observable outcome at the manager call sites is
modelled. -/
structure World where
  fs : HostType → HostFS
  writeOk : HostType → Bool
  hasBackupMgr : Bool
  backupOutcome : Option String
  available : HostType → Bool

/-- Replace one host's filesystem state. -/
def World.setFS (w : World) (ht : HostType) (fs' : HostFS) : World :=
  { w with fs := fun h => if h = ht then fs' else w.fs h }

/-- `MCPHostRegistry.detect_available_hosts` (host_management.py 59–71):
registered hosts whose `is_host_available()` is true, in registration order
(per-host detection errors are swallowed; availability is modelled as a total
predicate of the world). -/
def detect_available_hosts (w : World) : List HostType :=
  registeredHosts.filter w.available

/-- `ConfigurationResult` (models.py 263–278). `backup_path` is a path
string. -/
structure ConfigurationResult where
  success : Bool
  hostname : String
  server_name : Option String := none
  backup_created : Bool := false
  backup_path : Option String := none
  error_message : Option String := none
deriving DecidableEq, Repr

/-- Constructing a `ConfigurationResult` runs `validate_result_consistency`
(models.py 272–278): `success=False` with a falsy `error_message` raises a
`ValidationError`. -/
def mkConfigurationResult (success : Bool) (hostname : String) (server_name : Option String)
    (backup_created : Bool) (backup_path : Option String) (error_message : Option String) :
    Except String ConfigurationResult :=
  if success = false ∧ optStrTruthy error_message = false then
    .error "Error message required when success=False"
  else
    .ok { success := success, hostname := hostname, server_name := server_name,
          backup_created := backup_created, backup_path := backup_path,
          error_message := error_message }

/-- The `except Exception` handler shared by the manager operations: build a
failure result carrying `str(e)`.  This construction itself goes through the
model validator; if it raised too (only possible for an empty message), the
exception would escape the operation, so the model keeps that path as
`.error`. -/
def excHandler (hostname : String) (fallbackName : Option String) (e : String) (w : World) :
    Except String (ConfigurationResult × World) :=
  match mkConfigurationResult false hostname fallbackName false none (some e) with
  | .ok r => .ok (r, w)
  | .error e₂ => .error e₂

/-- Build a `ConfigurationResult` inside the operation's `try` block: a
`ValidationError` raised by the construction is caught by the operation's own
`except` clause and converted by `excHandler`. -/
def tryResult (hostname : String) (fallbackName : Option String) (w : World)
    (success : Bool) (server_name : Option String) (backup_created : Bool)
    (backup_path : Option String) (error_message : Option String) :
    Except String (ConfigurationResult × World) :=
  match mkConfigurationResult success hostname server_name backup_created backup_path
      error_message with
  | .ok r => .ok (r, w)
  | .error e => excHandler hostname fallbackName e w

/-- The backup step shared by the operations (e.g. host_management.py
153–160): if backups are requested, a backup manager exists, the strategy
knows its config path and the file exists, `create_backup` runs; on success
its `backup_path` is recorded. -/
def backupStep (w : World) (ht : HostType) (no_backup : Bool) : Option String :=
  if !no_backup && w.hasBackupMgr && (w.fs ht).pathKnown && (w.fs ht).file.isSome then
    w.backupOutcome
  else none

/-! ## Manager operations (host_management.py 135–309) -/

/-- The in-memory update `configure_server` performs before writing
(host_management.py 150–164): read the current configuration, then
`add_server(server_name, server_config)` where
`server_name = getattr(server_config, 'name', 'default_server')`.  The
`'default_server'` fallback is dead code: `name` is a declared field of
`MCPServerConfig`, so the attribute always exists (it may be `None`). -/
def configure_plan (w : World) (sc : MCPServerConfig) (ht : HostType) :
    Option String × HostConfiguration :=
  let current := read_configuration ht (w.fs ht)
  (sc.name, current.add_server sc.name sc)

/-- The read–backup–add–write path of `configure_server`
(host_management.py 150–175), reached once the host is resolved and the
server configuration validated. -/
def configure_attempt (w : World) (sc : MCPServerConfig) (hostname : String)
    (ht : HostType) (no_backup : Bool) : Except String (ConfigurationResult × World) :=
  let backup_path := backupStep w ht no_backup
  let plan := configure_plan w sc ht
  let wr := write_configuration ht (w.fs ht) (w.writeOk ht) plan.2
  let w' := w.setFS ht wr.2
  tryResult hostname none w' wr.1 plan.1 backup_path.isSome backup_path none

/-- `MCPHostConfigurationManager.configure_server` (host_management.py
135–182).  Returns `.error` only if an exception escapes the operation. -/
def configure_server (w : World) (sc : MCPServerConfig) (hostname : String)
    (no_backup : Bool) : Except String (ConfigurationResult × World) :=
  match hostTypeOfString hostname with
  | .error e => excHandler hostname none e w
  | .ok ht =>
    if validate_server_config ht sc = false then
      tryResult hostname none w false none false none
        (some ("Server configuration invalid for " ++ hostname))
    else
      configure_attempt w sc hostname ht no_backup

/-- `MCPHostConfigurationManager.remove_server` (host_management.py 184–232). -/
def remove_server (w : World) (server_name hostname : String) (no_backup : Bool) :
    Except String (ConfigurationResult × World) :=
  match hostTypeOfString hostname with
  | .error e => excHandler hostname (some server_name) e w
  | .ok ht =>
    let current := read_configuration ht (w.fs ht)
    if dictHasKey current.servers (some server_name) = false then
      tryResult hostname (some server_name) w false (some server_name) false none
        (some ("Server '" ++ server_name ++ "' not found in " ++ hostname ++ " configuration"))
    else
      let backup_path := backupStep w ht no_backup
      let current₂ := (current.remove_server (some server_name)).2
      let wr := write_configuration ht (w.fs ht) (w.writeOk ht) current₂
      let w' := w.setFS ht wr.2
      tryResult hostname (some server_name) w' wr.1 (some server_name)
        backup_path.isSome backup_path none

/-! ## Environment data and synchronization (models.py 125–175,
host_management.py 234–309) -/

/-- `PackageHostConfiguration` (models.py 125–138); timestamps are modelled as
epoch integers. -/
structure PackageHostConfiguration where
  config_path : String
  configured_at : Int
  last_synced : Int
  server_config : MCPServerConfig

/-- `EnvironmentPackageEntry` (models.py 141–175). -/
structure EnvironmentPackageEntry where
  name : String
  version : String
  type : String
  source : String
  installed_at : Int
  configured_hosts : List (String × PackageHostConfiguration)

/-- `EnvironmentData` (models.py 178–227); only the fields the manager reads
are modelled. -/
structure EnvironmentData where
  name : String
  description : String
  created_at : Int
  packages : List EnvironmentPackageEntry

/-- `EnvironmentData.get_mcp_packages` (models.py 198–200): packages with a
truthy (non-empty) `configured_hosts`. -/
def EnvironmentData.get_mcp_packages (e : EnvironmentData) : List EnvironmentPackageEntry :=
  e.packages.filter (fun p => !p.configured_hosts.isEmpty)

/-- `SyncResult` (models.py 281–299). -/
structure SyncResult where
  success : Bool
  results : List ConfigurationResult
  servers_synced : Nat
  hosts_updated : Nat
deriving Repr

/-- `SyncResult.failed_hosts` (models.py 288–291). -/
def SyncResult.failed_hosts (r : SyncResult) : List String :=
  (r.results.filter (fun c => !c.success)).map (·.hostname)

/-- `SyncResult.success_rate` (models.py 293–299); Python's float arithmetic
is modelled over `ℚ` (the ratios in scope are exact). -/
def SyncResult.success_rate (r : SyncResult) : ℚ :=
  if r.results.isEmpty then 0
  else (((r.results.filter (fun c => c.success)).length : ℚ) / (r.results.length : ℚ)) * 100

/-- The body of the per-host loop of `sync_environment_to_hosts`
(host_management.py 244–298): resolve the host, collect the environment's
servers recorded for it, skip with an informational success result when there
is nothing to sync, otherwise read–backup–merge–write; returns the result, the
number of servers merged (counted toward `servers_synced` even when the write
fails), and the updated world.  `hostServersFor` is the collection loop
(host_management.py 250–255): the servers recorded for `hostname` across the
environment's MCP packages, keyed by package name. -/
def hostServersFor (env : EnvironmentData) (hostname : String) :
    List (String × MCPServerConfig) :=
  env.get_mcp_packages.foldl (fun acc p =>
    match dictGet? p.configured_hosts hostname with
    | some hc => dictSet acc p.name hc.server_config
    | none => acc) []

def sync_host (w : World) (env : EnvironmentData) (no_backup : Bool) (hostname : String) :
    Except String (ConfigurationResult × Nat × World) :=
  match hostTypeOfString hostname with
  | .error e => (excHandler hostname none e w).map (fun p => (p.1, 0, p.2))
  | .ok ht =>
    let host_servers := hostServersFor env hostname
    if host_servers.isEmpty then
      (tryResult hostname none w true none false none (some "No servers to sync")).map
        (fun p => (p.1, 0, p.2))
    else
      let current := read_configuration ht (w.fs ht)
      let backup_path := backupStep w ht no_backup
      let current₂ := host_servers.foldl
        (fun c (p : String × MCPServerConfig) => c.add_server (some p.1) p.2) current
      let wr := write_configuration ht (w.fs ht) (w.writeOk ht) current₂
      let w' := w.setFS ht wr.2
      (tryResult hostname none w' wr.1 none backup_path.isSome backup_path none).map
        (fun p => (p.1, host_servers.length, p.2))

/-- The sequential loop over target hosts, accumulating per-host results and
the `servers_synced` counter. -/
def syncLoop (env : EnvironmentData) (no_backup : Bool) :
    List String → World → Except String (List ConfigurationResult × Nat × World)
  | [], w => .ok ([], 0, w)
  | h :: rest, w =>
    match sync_host w env no_backup h with
    | .error e => .error e
    | .ok (r, n, w') =>
      match syncLoop env no_backup rest w' with
      | .error e => .error e
      | .ok (rs, m, w'') => .ok (r :: rs, n + m, w'')

/-- `MCPHostConfigurationManager.sync_environment_to_hosts`
(host_management.py 234–309).  `target_hosts = none` models the Python
default `target_hosts=None`; only then does the operation fall back to
`detect_available_hosts()`. -/
def sync_environment_to_hosts (w : World) (env : EnvironmentData)
    (target_hosts : Option (List String)) (no_backup : Bool) :
    Except String (SyncResult × World) :=
  let hosts := match target_hosts with
    | none => (detect_available_hosts w).map hostValue
    | some ts => ts
  match syncLoop env no_backup hosts w with
  | .error e => .error e
  | .ok (results, servers_synced, w') =>
    let hosts_updated := (results.filter (fun r => r.success)).length
    .ok ({ success := decide (0 < hosts_updated), results := results,
           servers_synced := servers_synced, hosts_updated := hosts_updated }, w')

/-! ## Substring and non-emptiness helpers for error messages -/

/-- `pat` occurs as a contiguous substring of `s`. -/
def containsSub : List Char → List Char → Bool
  | [], p => listStartsWith [] p
  | c :: rest, p => listStartsWith (c :: rest) p || containsSub rest p

/-- Python `pat in s` for strings. -/
def strContainsSub (s pat : String) : Bool :=
  containsSub s.data pat.data

theorem listStartsWith_append_self (p b : List Char) :
    listStartsWith (p ++ b) p = true := by
  induction p with
  | nil => cases b <;> rfl
  | cons c cs ih => simp [listStartsWith, ih]

theorem containsSub_append_of_startsWith (a rest p : List Char)
    (h : listStartsWith rest p = true) : containsSub (a ++ rest) p = true := by
  induction a with
  | nil =>
    cases rest with
    | nil => exact h
    | cons c cs => simp [containsSub, h]
  | cons x xs ih => simp [containsSub, ih]

theorem strContainsSub_mid (a n b : String) :
    strContainsSub (a ++ n ++ b) n = true := by
  have hd : (a ++ n ++ b).data = a.data ++ (n.data ++ b.data) := by
    simp [String.data_append]
  rw [strContainsSub, hd]
  exact containsSub_append_of_startsWith _ _ _ (listStartsWith_append_self _ _)

theorem string_ne_empty_of_data_cons (s : String) (c : Char) (cs : List Char)
    (h : s.data = c :: cs) : s ≠ "" := by
  intro he
  rw [he] at h
  exact List.noConfusion h

theorem append3_ne_empty (a n b : String) (c : Char) (cs : List Char)
    (h : a.data = c :: cs) : a ++ n ++ b ≠ "" := by
  apply string_ne_empty_of_data_cons _ c (cs ++ (n.data ++ b.data))
  simp [String.data_append, h]

/-! ## Shared lemmas about result construction -/

/-- The §3 invariant of `ConfigurationResult`: a failure carries a non-empty
error message. -/
def resInv (r : ConfigurationResult) : Prop :=
  r.success = false → ∃ m, r.error_message = some m ∧ m ≠ ""

theorem optStrTruthy_true {m : Option String} (h : optStrTruthy m = true) :
    ∃ m', m = some m' ∧ m' ≠ "" := by
  cases m with
  | none => simp [optStrTruthy] at h
  | some s =>
    refine ⟨s, rfl, ?_⟩
    simpa [optStrTruthy] using h

theorem mkConfigurationResult_ok_inv {s : Bool} {h : String} {n : Option String} {b : Bool}
    {p : Option String} {m : Option String} {r : ConfigurationResult}
    (hok : mkConfigurationResult s h n b p m = .ok r) : resInv r := by
  unfold mkConfigurationResult at hok
  split at hok
  · exact absurd hok (by simp)
  · rename_i hc
    obtain rfl : _ = r := by simpa using hok
    intro hs
    have hm : optStrTruthy m = true := by
      by_contra hm
      exact hc ⟨hs, by simpa using hm⟩
    exact optStrTruthy_true hm

theorem mkConfigurationResult_ok_of_ne {s : Bool} {h : String} {n : Option String} {b : Bool}
    {p : Option String} {e : String} (he : e ≠ "") :
    mkConfigurationResult s h n b p (some e) =
      .ok { success := s, hostname := h, server_name := n, backup_created := b,
            backup_path := p, error_message := some e } := by
  unfold mkConfigurationResult
  have : optStrTruthy (some e) = true := by simpa [optStrTruthy] using he
  simp [this]

theorem excHandler_eq {hostname : String} {fb : Option String} {e : String} {w : World}
    (he : e ≠ "") :
    excHandler hostname fb e w =
      .ok ({ success := false, hostname := hostname, server_name := fb,
             backup_created := false, backup_path := none,
             error_message := some e }, w) := by
  unfold excHandler
  rw [mkConfigurationResult_ok_of_ne he]

theorem tryResult_spec (hostname : String) (fb : Option String) (w : World)
    (s : Bool) (sn : Option String) (bc : Bool) (bp : Option String) (em : Option String) :
    ∃ r, tryResult hostname fb w s sn bc bp em = .ok (r, w) ∧ resInv r ∧
      r.hostname = hostname ∧ (r.server_name = sn ∨ r.server_name = fb) := by
  unfold tryResult
  cases hmk : mkConfigurationResult s hostname sn bc bp em with
  | ok r =>
    refine ⟨r, rfl, mkConfigurationResult_ok_inv hmk, ?_⟩
    unfold mkConfigurationResult at hmk
    split at hmk
    · exact absurd hmk (by simp)
    · obtain rfl : _ = r := by simpa using hmk
      exact ⟨rfl, Or.inl rfl⟩
  | error e =>
    have he : e = "Error message required when success=False" := by
      unfold mkConfigurationResult at hmk
      split at hmk
      · simpa using hmk.symm
      · exact absurd hmk (by simp)
    subst he
    exact ⟨_, excHandler_eq (show ("Error message required when success=False" : String) ≠ ""
      by decide), fun _ => ⟨_, rfl, by decide⟩, rfl, Or.inr rfl⟩

theorem hostTypeOfString_error_msg {s e : String} (h : hostTypeOfString s = .error e) :
    e = "'" ++ s ++ "' is not a valid MCPHostType" := by
  unfold hostTypeOfString at h
  repeat' split at h
  all_goals simp_all

theorem hostTypeOfString_error_ne_empty {s e : String} (h : hostTypeOfString s = .error e) :
    e ≠ "" := by
  rw [hostTypeOfString_error_msg h]
  exact append3_ne_empty _ _ _ '\'' [] rfl

theorem startsWith_http_ne_empty {u : String}
    (h : pyStartsWith u "http://" = true ∨ pyStartsWith u "https://" = true) : u ≠ "" := by
  intro he
  subst he
  rcases h with h | h <;> exact absurd h (by decide)

/-! ## The claims -/

/-- The §4.1 validation contract, stated in the spec's words, to be compared
with `MCPServerConfig.build`. -/
def specServerConfigRules (command : Option String) (args : Option (List String))
    (env : Option (List (String × String))) (url : Option String)
    (headers : Option (List (String × String))) : Prop :=
  ¬(command.isSome ∧ url.isSome) ∧
  (command.isSome ∨ url.isSome) ∧
  (∀ cs, command = some cs → pyStrip cs ≠ "") ∧
  (∀ us, url = some us →
    (pyStartsWith us "http://" = true ∨ pyStartsWith us "https://" = true)) ∧
  (args.isSome → command.isSome) ∧
  (env.isSome → command.isSome) ∧
  (headers.isSome → url.isSome)

/-- C1: `MCPServerConfig` construction enforces all of the validation rules:
it fails exactly when both or neither of `command`/`url` are present, when a
present `command` is empty after trimming, when a present `url` does not start
with `http://` or `https://`, when `args` or `env` comes without `command`,
or when `headers` comes without `url`; any failure yields a validation error
and no object, and a success yields the object with the trimmed command. -/
theorem C1_server_config_validation (n c : Option String) (a : Option (List String))
    (e : Option (List (String × String))) (u : Option String)
    (hd : Option (List (String × String))) :
    (match MCPServerConfig.build n c a e u hd with
     | .ok cfg => specServerConfigRules c a e u hd ∧
         cfg = { name := n, command := c.map pyStrip, args := a, env := e,
                 url := u, headers := hd }
     | .error _ => ¬ specServerConfigRules c a e u hd) := by
  rcases c with _ | cv
  · rcases u with _ | uv
    · intro hr
      rcases hr.2.1 with h | h <;> simp at h
    · by_cases hu : pyStartsWith uv "http://" = true ∨ pyStartsWith uv "https://" = true
      · have hne : uv ≠ "" := startsWith_http_ne_empty hu
        have hu' : (pyStartsWith uv "http://" || pyStartsWith uv "https://") = true := by
          rcases hu with h | h <;> simp [h]
        have htr : optStrTruthy (some uv) = true := by simp [optStrTruthy, hne]
        rcases a with _ | av
        · rcases e with _ | ev
          · have hb : MCPServerConfig.build n none none none (some uv) hd =
                .ok { name := n, url := some uv, headers := hd } := by
              simp [MCPServerConfig.build, validateCommandField, validateUrlField, hu', htr,
                    optStrTruthy, hne]
            rw [hb]
            refine ⟨⟨?_, Or.inr rfl, ?_, ?_, ?_, ?_, ?_⟩, rfl⟩
            · rintro ⟨h1, _⟩
              simp at h1
            · intro cs h
              cases h
            · intro us h
              cases h
              exact hu
            · intro h
              simp at h
            · intro h
              simp at h
            · intro _
              rfl
          · have hb : MCPServerConfig.build n none none (some ev) (some uv) hd =
                .error "'env' can only be specified with 'command' for local servers" := by
              simp [MCPServerConfig.build, validateCommandField, validateUrlField, hu', htr,
                    optStrTruthy, hne]
            rw [hb]
            intro hr
            have h6 := hr.2.2.2.2.2.1 (by simp)
            simp at h6
        · have hb : MCPServerConfig.build n none (some av) e (some uv) hd =
              .error "'args' can only be specified with 'command' for local servers" := by
            simp [MCPServerConfig.build, validateCommandField, validateUrlField, hu', htr,
                  optStrTruthy, hne]
          rw [hb]
          intro hr
          have h5 := hr.2.2.2.2.1 (by simp)
          simp at h5
      · have hu' : (pyStartsWith uv "http://" || pyStartsWith uv "https://") = false := by
          cases h1 : pyStartsWith uv "http://"
          · cases h2 : pyStartsWith uv "https://"
            · simp
            · exact absurd (Or.inr h2) hu
          · exact absurd (Or.inl h1) hu
        have hb : MCPServerConfig.build n none a e (some uv) hd =
            .error "URL must start with http:// or https://" := by
          simp [MCPServerConfig.build, validateCommandField, validateUrlField, hu']
        rw [hb]
        intro hr
        exact hu (hr.2.2.2.1 uv rfl)
  · by_cases hc : pyStrip cv = ""
    · have hb : MCPServerConfig.build n (some cv) a e u hd =
          .error "Command cannot be empty" := by
        simp [MCPServerConfig.build, validateCommandField, hc]
      rw [hb]
      intro hr
      exact hr.2.2.1 cv rfl hc
    · have hctr : optStrTruthy (some (pyStrip cv)) = true := by simp [optStrTruthy, hc]
      rcases u with _ | uv
      · rcases hd with _ | hv
        · have hb : MCPServerConfig.build n (some cv) a e none none =
              .ok { name := n, command := some (pyStrip cv), args := a, env := e } := by
            simp [MCPServerConfig.build, validateCommandField, validateUrlField, hc, hctr,
                  optStrTruthy]
          rw [hb]
          refine ⟨⟨?_, Or.inl rfl, ?_, ?_, ?_, ?_, ?_⟩, rfl⟩
          · rintro ⟨_, h2⟩
            simp at h2
          · intro cs h
            cases h
            exact hc
          · intro us h
            cases h
          · intro _
            rfl
          · intro _
            rfl
          · intro h
            simp at h
        · have hb : MCPServerConfig.build n (some cv) a e none (some hv) =
              .error "'headers' can only be specified with 'url' for remote servers" := by
            simp [MCPServerConfig.build, validateCommandField, validateUrlField, hc, hctr,
                  optStrTruthy]
          rw [hb]
          intro hr
          have h7 := hr.2.2.2.2.2.2 (by simp)
          simp at h7
      · by_cases hu : pyStartsWith uv "http://" = true ∨ pyStartsWith uv "https://" = true
        · have hne : uv ≠ "" := startsWith_http_ne_empty hu
          have hu' : (pyStartsWith uv "http://" || pyStartsWith uv "https://") = true := by
            rcases hu with h | h <;> simp [h]
          have htr : optStrTruthy (some uv) = true := by simp [optStrTruthy, hne]
          have hb : MCPServerConfig.build n (some cv) a e (some uv) hd =
              .error "Cannot specify both 'command' and 'url' - choose local or remote server" := by
            simp [MCPServerConfig.build, validateCommandField, validateUrlField, hc, hctr,
                  hu', htr, optStrTruthy, hne]
          rw [hb]
          intro hr
          exact hr.1 (by simp)
        · have hu' : (pyStartsWith uv "http://" || pyStartsWith uv "https://") = false := by
            cases h1 : pyStartsWith uv "http://"
            · cases h2 : pyStartsWith uv "https://"
              · simp
              · exact absurd (Or.inr h2) hu
            · exact absurd (Or.inl h1) hu
          have hb : MCPServerConfig.build n (some cv) a e (some uv) hd =
              .error "URL must start with http:// or https://" := by
            simp [MCPServerConfig.build, validateCommandField, validateUrlField, hc, hu']
          rw [hb]
          intro hr
          exact hu (hr.2.2.2.1 uv rfl)

/-- C2: for every host strategy, writing a configuration over an existing
file keeps every top-level key other than the strategy's managed root key
unchanged, and sets the root key to the serialized server map. -/
theorem C2_write_preserves_sibling_keys (ht : HostType) (cfg : HostConfiguration)
    (kvs : List (String × Json)) (k : String) (hk : k ≠ configKey ht) :
    ∃ kvs',
      write_configuration ht ⟨true, some (.val (.obj kvs))⟩ true cfg =
        (true, ⟨true, some (.val (.obj kvs'))⟩) ∧
      dictGet? kvs' (configKey ht) = some (serializeServers cfg) ∧
      dictGet? kvs' k = dictGet? kvs k := by
  refine ⟨dictSet kvs (configKey ht) (serializeServers cfg), rfl,
    dictGet?_set_self _ _ _, dictGet?_set_ne _ _ _ _ hk⟩

theorem C2_write_preserves_sibling_keys_witness :
    ∃ kvs',
      write_configuration .cursor ⟨true, some (.val (.obj [("theme", .str "dark")]))⟩
        true ⟨[]⟩ = (true, ⟨true, some (.val (.obj kvs'))⟩) ∧
      dictGet? kvs' (configKey .cursor) = some (serializeServers ⟨[]⟩) ∧
      dictGet? kvs' "theme" = dictGet? [("theme", Json.str "dark")] "theme" :=
  C2_write_preserves_sibling_keys .cursor ⟨[]⟩ [("theme", Json.str "dark")] "theme" (by decide)

/-- A valid remote (url-based) server configuration. -/
def remoteExampleConfig : MCPServerConfig :=
  { url := some "http://example.com" }

/-- C4 counterexample: `remoteExampleConfig` is a valid remote configuration
with no `command`, yet the Claude Desktop strategy's `validate_server_config`
accepts it — contradicting "the Claude Desktop strategy does not accept
remote (url-based) server configurations". -/
theorem C4_counterexample :
    MCPServerConfig.build none none none none (some "http://example.com") none =
      .ok remoteExampleConfig ∧
    remoteExampleConfig.command = none ∧
    remoteExampleConfig.url = some "http://example.com" ∧
    validate_server_config .claude_desktop remoteExampleConfig = true :=
  ⟨rfl, rfl, rfl, rfl⟩

/-- C4 (amended): the Claude-family `validate_server_config` rejects a local
configuration (non-empty `command`) exactly when the command is not an
absolute path, and accepts every configuration without a `command` — in
particular it accepts remote (url-based) configurations. -/
theorem C4_claude_validate (ht : HostType)
    (hht : ht = .claude_desktop ∨ ht = .claude_code) (sc : MCPServerConfig) :
    (∀ cmdStr, sc.command = some cmdStr → cmdStr ≠ "" →
      (validate_server_config ht sc = true ↔ posixIsAbsolute cmdStr = true)) ∧
    (sc.command = none → validate_server_config ht sc = true) := by
  rcases hht with rfl | rfl <;>
  exact ⟨fun cmdStr hcmd hne => by
           simp [validate_server_config, hcmd, optStrTruthy, hne],
         fun hcmd => by simp [validate_server_config, hcmd, optStrTruthy]⟩

theorem C4_claude_validate_witness :
    validate_server_config .claude_desktop { command := some "/usr/bin/python" } = true ∧
    validate_server_config .claude_desktop { command := some "python" } = false := by
  constructor
  · exact ((C4_claude_validate .claude_desktop (Or.inl rfl)
      { command := some "/usr/bin/python" }).1 "/usr/bin/python" rfl (by decide)).mpr
      (by decide)
  · have h := ((C4_claude_validate .claude_desktop (Or.inl rfl)
      { command := some "python" }).1 "python" rfl (by decide))
    cases hv : validate_server_config .claude_desktop { command := some "python" }
    · rfl
    · exact absurd (h.mp hv) (by decide)

theorem string_ne_empty_of_length_pos {s : String} (h : 0 < s.length) : s ≠ "" := by
  intro he
  rw [he] at h
  simp at h

/-- C6: removing a server name absent from the host's current configuration
returns `success=false` with the non-empty message naming the missing server
and the host, and leaves the world (in particular the on-disk file) exactly
as it was: no write, and not even a backup, is performed. -/
theorem C6_remove_absent_server (w : World) (n hostname : String) (ht : HostType) (nb : Bool)
    (hht : hostTypeOfString hostname = .ok ht)
    (habs : dictHasKey (read_configuration ht (w.fs ht)).servers (some n) = false) :
    remove_server w n hostname nb =
      .ok ({ success := false, hostname := hostname, server_name := some n,
             backup_created := false, backup_path := none,
             error_message :=
               some ("Server '" ++ n ++ "' not found in " ++ hostname ++
                 " configuration") }, w) ∧
    ("Server '" ++ n ++ "' not found in " ++ hostname ++ " configuration") ≠ "" ∧
    strContainsSub ("Server '" ++ n ++ "' not found in " ++ hostname ++ " configuration")
      n = true ∧
    strContainsSub ("Server '" ++ n ++ "' not found in " ++ hostname ++ " configuration")
      hostname = true := by
  have hlen : ("Server '" : String).length = 8 := by decide
  have hmsg : ("Server '" ++ n ++ "' not found in " ++ hostname ++ " configuration") ≠ "" := by
    intro he
    have hl := congrArg String.length he
    simp [String.length_append, hlen] at hl
  refine ⟨?_, hmsg, ?_, ?_⟩
  · simp only [remove_server, hht, habs]
    rw [tryResult, mkConfigurationResult_ok_of_ne hmsg]
    simp
  · have hassoc : ("Server '" ++ n ++ "' not found in " ++ hostname ++ " configuration")
        = "Server '" ++ n ++ ("' not found in " ++ hostname ++ " configuration") := by
      simp [String.append_assoc]
    rw [hassoc]
    exact strContainsSub_mid _ _ _
  · exact strContainsSub_mid ("Server '" ++ n ++ "' not found in ") hostname " configuration"

theorem C6_remove_absent_server_witness :
    remove_server
      { fs := fun _ => ⟨true, none⟩, writeOk := fun _ => true, hasBackupMgr := true,
        backupOutcome := none, available := fun _ => false } "weather" "cursor" false =
      .ok ({ success := false, hostname := "cursor", server_name := some "weather",
             backup_created := false, backup_path := none,
             error_message :=
               some ("Server '" ++ "weather" ++ "' not found in " ++ "cursor" ++
                 " configuration") },
           { fs := fun _ => ⟨true, none⟩, writeOk := fun _ => true, hasBackupMgr := true,
             backupOutcome := none, available := fun _ => false }) :=
  (C6_remove_absent_server
    { fs := fun _ => ⟨true, none⟩, writeOk := fun _ => true, hasBackupMgr := true,
      backupOutcome := none, available := fun _ => false }
    "weather" "cursor" .cursor false rfl rfl).1

theorem configure_attempt_spec (w : World) (sc : MCPServerConfig) (hostname : String)
    (ht : HostType) (nb : Bool) :
    ∃ r w', configure_attempt w sc hostname ht nb = .ok (r, w') ∧ resInv r ∧
      r.hostname = hostname ∧ (r.server_name = sc.name ∨ r.server_name = none) := by
  obtain ⟨r, heq, hinv, hh, hsn⟩ := tryResult_spec hostname none
    (w.setFS ht (write_configuration ht (w.fs ht) (w.writeOk ht) (configure_plan w sc ht).2).2)
    (write_configuration ht (w.fs ht) (w.writeOk ht) (configure_plan w sc ht).2).1
    (configure_plan w sc ht).1 (backupStep w ht nb).isSome (backupStep w ht nb) none
  exact ⟨r, _, heq, hinv, hh, hsn⟩

/-- A sample local server configuration. -/
def sampleLocalConfig : MCPServerConfig :=
  { name := some "weather", command := some "/usr/bin/python3" }

/-- Availability predicate of a system on which only Cursor is installed. -/
def onlyCursorAvailable : HostType → Bool
  | .cursor => true
  | _ => false

/-- A world in which only Cursor is available and no host has a config file
yet. -/
def w0 : World :=
  { fs := fun _ => ⟨true, none⟩, writeOk := fun _ => true, hasBackupMgr := false,
    backupOutcome := none, available := onlyCursorAvailable }

/-- An environment with no packages. -/
def env0 : EnvironmentData :=
  { name := "dev", description := "empty", created_at := 0, packages := [] }

/-- C5 counterexample: with only Cursor available, a sync called with an
explicitly empty target list yields no per-host results at all, whereas
defaulting to `detect_available_hosts` (as the claim states) would yield one
result for Cursor — so an empty list does not default. -/
theorem C5_counterexample :
    (detect_available_hosts w0).map hostValue = ["cursor"] ∧
    sync_environment_to_hosts w0 env0 (some []) false =
      .ok ({ success := false, results := [], servers_synced := 0, hosts_updated := 0 }, w0) ∧
    (sync_environment_to_hosts w0 env0 (some ["cursor"]) false).toOption.map
      (fun p => p.1.results.length) = some 1 := by
  exact ⟨rfl, rfl, rfl⟩

/-- C5 (amended): `sync_environment_to_hosts` falls back to
`detect_available_hosts` exactly when `target_hosts` is `None` (the parameter
omitted); an explicitly empty list is used as-is and produces an empty result
list. -/
theorem C5_default_targets (w : World) (env : EnvironmentData) (nb : Bool) :
    sync_environment_to_hosts w env none nb =
      sync_environment_to_hosts w env (some ((detect_available_hosts w).map hostValue)) nb ∧
    sync_environment_to_hosts w env (some []) nb =
      .ok ({ success := false, results := [], servers_synced := 0, hosts_updated := 0 }, w) :=
  ⟨rfl, rfl⟩

/-- C9 counterexample: configuring on the unregistered hostname
`"not-a-host"` yields the failure message `'not-a-host' is not a valid
MCPHostType`, which names the offending host but does not contain the valid
host identifiers — the claim's "lists the valid host identifiers" fails. -/
theorem C9_counterexample :
    configure_server w0 sampleLocalConfig "not-a-host" false =
      .ok ({ success := false, hostname := "not-a-host", server_name := none,
             backup_created := false, backup_path := none,
             error_message := some "'not-a-host' is not a valid MCPHostType" }, w0) ∧
    strContainsSub "'not-a-host' is not a valid MCPHostType" "not-a-host" = true ∧
    (registeredHosts.map hostValue).all
      (fun v => strContainsSub "'not-a-host' is not a valid MCPHostType" v) = false := by
  refine ⟨?_, by decide, by decide⟩
  rfl

/-- C9 (amended): for every hostname that is not a valid host identifier,
`configure_server` returns a failure result whose error message names the
offending host — it is exactly CPython's enum error
`'<hostname>' is not a valid MCPHostType` — but it does not include the list
of valid host identifiers (see the counterexample); the listing message of
`MCPHostRegistry.get_strategy` is unreachable once all strategies are
registered. -/
theorem C9_unknown_host (w : World) (sc : MCPServerConfig) (hostname : String) (nb : Bool)
    (e : String) (herr : hostTypeOfString hostname = .error e) :
    configure_server w sc hostname nb =
      .ok ({ success := false, hostname := hostname, server_name := none,
             backup_created := false, backup_path := none,
             error_message := some ("'" ++ hostname ++ "' is not a valid MCPHostType") }, w) ∧
    strContainsSub ("'" ++ hostname ++ "' is not a valid MCPHostType") hostname = true := by
  have hne := hostTypeOfString_error_ne_empty herr
  obtain rfl : e = "'" ++ hostname ++ "' is not a valid MCPHostType" :=
    hostTypeOfString_error_msg herr
  refine ⟨?_, strContainsSub_mid "'" hostname "' is not a valid MCPHostType"⟩
  simp only [configure_server, herr]
  rw [excHandler_eq hne]

theorem C9_unknown_host_witness :
    configure_server w0 sampleLocalConfig "aider" false =
      .ok ({ success := false, hostname := "aider", server_name := none,
             backup_created := false, backup_path := none,
             error_message := some ("'" ++ "aider" ++ "' is not a valid MCPHostType") }, w0) :=
  (C9_unknown_host w0 sampleLocalConfig "aider" false _ rfl).1

/-- C10: for a valid `MCPServerConfig` whose `name` is unset, the
`getattr(server_config, 'name', 'default_server')` fallback is never taken
(the attribute always exists), so the server is stored in the host
configuration under the key `None` and the returned result carries
`server_name=None`. -/
theorem C10_unnamed_server (w : World) (sc : MCPServerConfig) (hostname : String)
    (ht : HostType) (nb : Bool) (hht : hostTypeOfString hostname = .ok ht)
    (hname : sc.name = none) (hv : validate_server_config ht sc = true) :
    (configure_plan w sc ht).1 = none ∧
    dictGet? (configure_plan w sc ht).2.servers none = some sc ∧
    ∃ r w', configure_server w sc hostname nb = .ok (r, w') ∧ r.server_name = none := by
  refine ⟨hname, ?_, ?_⟩
  · show dictGet? ((read_configuration ht (w.fs ht)).add_server sc.name sc).servers none =
      some sc
    rw [hname]
    exact dictGet?_set_self _ _ _
  · simp only [configure_server, hht, hv]
    rw [if_neg (by simp)]
    obtain ⟨r, w', heq, _, _, hsn⟩ := configure_attempt_spec w sc hostname ht nb
    refine ⟨r, w', heq, ?_⟩
    rcases hsn with h | h
    · rw [h, hname]
    · exact h

theorem C10_unnamed_server_witness :
    (configure_plan w0 { command := some "/usr/bin/python3" } .cursor).1 = none ∧
    dictGet? (configure_plan w0 { command := some "/usr/bin/python3" } .cursor).2.servers
      none = some { command := some "/usr/bin/python3" } ∧
    ∃ r w', configure_server w0 { command := some "/usr/bin/python3" } "cursor" false =
      .ok (r, w') ∧ r.server_name = none :=
  C10_unnamed_server w0 { command := some "/usr/bin/python3" } "cursor" .cursor false
    rfl rfl rfl

theorem sync_host_spec (w : World) (env : EnvironmentData) (nb : Bool) (h : String) :
    ∃ r n w', sync_host w env nb h = .ok (r, n, w') ∧ resInv r := by
  cases hht : hostTypeOfString h with
  | error e =>
    have hne := hostTypeOfString_error_ne_empty hht
    refine ⟨{ success := false, hostname := h, server_name := none, backup_created := false,
              backup_path := none, error_message := some e }, 0, w, ?_,
            fun _ => ⟨e, rfl, hne⟩⟩
    simp only [sync_host, hht, excHandler_eq hne, Except.map]
  | ok ht =>
    cases hse : (hostServersFor env h).isEmpty with
    | true =>
      obtain ⟨r, heq, hinv, _, _⟩ := tryResult_spec h none w true none false none
        (some "No servers to sync")
      refine ⟨r, 0, w, ?_, hinv⟩
      simp only [sync_host, hht, hse, if_true, heq, Except.map]
    | false =>
      obtain ⟨r, heq, hinv, _, _⟩ := tryResult_spec h none
        (w.setFS ht (write_configuration ht (w.fs ht) (w.writeOk ht)
          ((hostServersFor env h).foldl
            (fun c (p : String × MCPServerConfig) => c.add_server (some p.1) p.2)
            (read_configuration ht (w.fs ht)))).2)
        (write_configuration ht (w.fs ht) (w.writeOk ht)
          ((hostServersFor env h).foldl
            (fun c (p : String × MCPServerConfig) => c.add_server (some p.1) p.2)
            (read_configuration ht (w.fs ht)))).1
        none (backupStep w ht nb).isSome (backupStep w ht nb) none
      refine ⟨r, (hostServersFor env h).length,
        (w.setFS ht (write_configuration ht (w.fs ht) (w.writeOk ht)
          ((hostServersFor env h).foldl
            (fun c (p : String × MCPServerConfig) => c.add_server (some p.1) p.2)
            (read_configuration ht (w.fs ht)))).2), ?_, hinv⟩
      simp only [sync_host, hht, hse, Bool.false_eq_true, if_false, heq, Except.map]

theorem syncLoop_spec (env : EnvironmentData) (nb : Bool) (hosts : List String) (w : World) :
    ∃ results ss w', syncLoop env nb hosts w = .ok (results, ss, w') ∧
      ∀ r ∈ results, resInv r := by
  induction hosts generalizing w with
  | nil => exact ⟨[], 0, w, rfl, by simp⟩
  | cons h rest ih =>
    obtain ⟨r, n, w₁, hr, hinv⟩ := sync_host_spec w env nb h
    obtain ⟨results, ss, w₂, hl, hall⟩ := ih w₁
    refine ⟨r :: results, n + ss, w₂, ?_, ?_⟩
    · simp only [syncLoop, hr, hl]
    · intro x hx
      rcases List.mem_cons.mp hx with rfl | hx
      · exact hinv
      · exact hall x hx

theorem sync_spec (w : World) (env : EnvironmentData) (targets : Option (List String))
    (nb : Bool) :
    ∃ res w', sync_environment_to_hosts w env targets nb = .ok (res, w') ∧
      res.success = decide (0 < (res.results.filter (fun r => r.success)).length) ∧
      res.hosts_updated = (res.results.filter (fun r => r.success)).length ∧
      (∀ r ∈ res.results, resInv r) := by
  obtain ⟨results, ss, w', hl, hall⟩ := syncLoop_spec env nb
    (match targets with
     | none => (detect_available_hosts w).map hostValue
     | some ts => ts) w
  refine ⟨{ success := decide (0 < (results.filter (fun r => r.success)).length),
            results := results, servers_synced := ss,
            hosts_updated := (results.filter (fun r => r.success)).length }, w',
          ?_, rfl, rfl, hall⟩
  simp only [sync_environment_to_hosts, hl]

theorem filter_length_pos_iff {α : Type} (p : α → Bool) (l : List α) :
    0 < (l.filter p).length ↔ ∃ x ∈ l, p x = true := by
  induction l with
  | nil => simp
  | cons a l ih =>
    by_cases h : p a = true <;> simp [List.filter_cons, h, ih]

/-- C3: the `SyncResult` returned by a sync is `success=true` iff at least
one per-host result succeeded; `failed_hosts` is exactly the hostnames of the
failed results; and `success_rate` is successes/total × 100, with 0 for an
empty result list. -/
theorem C3_sync_result (w : World) (env : EnvironmentData)
    (targets : Option (List String)) (nb : Bool) (res : SyncResult) (w' : World)
    (hok : sync_environment_to_hosts w env targets nb = .ok (res, w')) :
    (res.success = true ↔ ∃ r ∈ res.results, r.success = true) ∧
    res.failed_hosts = (res.results.filter (fun r => r.success = false)).map (·.hostname) ∧
    (res.results = [] → res.success_rate = 0) ∧
    (res.results ≠ [] →
      res.success_rate =
        (((res.results.filter (fun r => r.success)).length : ℚ) /
          (res.results.length : ℚ)) * 100) := by
  obtain ⟨res₂, w₂, hok₂, hsucc, _, _⟩ := sync_spec w env targets nb
  have hinj := hok₂.symm.trans hok
  rw [Except.ok.injEq, Prod.mk.injEq] at hinj
  obtain ⟨rfl, rfl⟩ := hinj
  refine ⟨?_, ?_, ?_, ?_⟩
  · rw [hsucc]
    simp [filter_length_pos_iff]
  · have hfun : (fun (r : ConfigurationResult) => decide (r.success = false)) =
        (fun r => !r.success) := by
      funext r
      cases hr : r.success <;> simp
    simp only [SyncResult.failed_hosts]
    rw [hfun]
  · intro h
    simp [SyncResult.success_rate, h]
  · intro h
    simp [SyncResult.success_rate, List.isEmpty_iff, h]

theorem C3_sync_result_witness :
    ({ success := false, results := [], servers_synced := 0,
       hosts_updated := 0 } : SyncResult).success = true ↔
    ∃ r ∈ ({ success := false, results := [], servers_synced := 0,
             hosts_updated := 0 } : SyncResult).results, r.success = true :=
  (C3_sync_result w0 env0 (some []) false _ w0 rfl).1

theorem parseFold_lookup_notmem (entries : List (String × Json))
    (acc : List (Option String × MCPServerConfig)) (nm : String)
    (hnot : nm ∉ entries.map Prod.fst) :
    dictGet? (entries.foldl parseStep acc) (some nm) = dictGet? acc (some nm) := by
  induction entries generalizing acc with
  | nil => rfl
  | cons p rest ih =>
    obtain ⟨k, v⟩ := p
    simp only [List.map_cons, List.mem_cons, not_or] at hnot
    rw [List.foldl_cons, ih _ hnot.2]
    unfold parseStep
    cases parseServerEntry v with
    | ok cfg =>
      exact dictGet?_set_ne _ _ _ _ (by simpa using hnot.1)
    | error e => rfl

theorem parseFold_lookup_mem (entries : List (String × Json))
    (acc : List (Option String × MCPServerConfig)) (nm : String) (d : Json)
    (hnd : (entries.map Prod.fst).Nodup) (hmem : (nm, d) ∈ entries)
    (hacc : dictGet? acc (some nm) = none) :
    dictGet? (entries.foldl parseStep acc) (some nm) = (parseServerEntry d).toOption := by
  induction entries generalizing acc with
  | nil => cases hmem
  | cons p rest ih =>
    obtain ⟨k, v⟩ := p
    simp only [List.map_cons, List.nodup_cons] at hnd
    rw [List.foldl_cons]
    rcases List.mem_cons.mp hmem with heq | hmem'
    · injection heq with h1 h2
      subst h1
      subst h2
      rw [parseFold_lookup_notmem rest _ nm hnd.1]
      unfold parseStep
      cases hp : parseServerEntry d with
      | ok cfg =>
        simp only [hp, Except.toOption]
        exact dictGet?_set_self _ _ _
      | error e =>
        simp only [hp, Except.toOption]
        exact hacc
    · have hk : nm ≠ k := by
        intro hh
        subst hh
        exact hnd.1 (List.mem_map_of_mem Prod.fst hmem')
      refine ih _ hnd.2 hmem' ?_
      unfold parseStep
      cases parseServerEntry v with
      | ok cfg =>
        rw [dictGet?_set_ne _ _ _ _ (by simpa using hk)]
        exact hacc
      | error e => exact hacc

/-- C7: for every host strategy, `read_configuration` returns an empty
`HostConfiguration` (not an error) when the config path is unknown or the
file is missing; and when parsing an existing file, the entry for each name
is present with its parsed value exactly when it passes `MCPServerConfig`
validation — failing entries are skipped while all valid entries are kept
(`Except.toOption` is `some` on a valid entry and `none` on a skipped one). -/
theorem C7_read_configuration (ht : HostType) (fs : HostFS) (kvs : List (String × Json))
    (entries : List (String × Json)) (nm : String) (d : Json) :
    ((fs.pathKnown = false ∨ fs.file = none) → read_configuration ht fs = ⟨[]⟩) ∧
    (dictGet? kvs (configKey ht) = some (.obj entries) →
      (entries.map Prod.fst).Nodup →
      (nm, d) ∈ entries →
      dictGet? (read_configuration ht ⟨true, some (.val (.obj kvs))⟩).servers (some nm) =
        (parseServerEntry d).toOption) := by
  constructor
  · obtain ⟨pk, file⟩ := fs
    rintro (hp | hf)
    · simp only at hp
      subst hp
      rfl
    · simp only at hf
      subst hf
      cases pk <;> rfl
  · intro hroot hnd hmem
    have hgd : dictGetD kvs (configKey ht) (Json.obj []) = Json.obj entries := by
      rw [dictGetD, hroot]
      rfl
    show dictGet?
      (read_configuration_with (configKey ht) ⟨true, some (.val (.obj kvs))⟩).servers
      (some nm) = (parseServerEntry d).toOption
    unfold read_configuration_with
    rw [if_neg (by simp)]
    simp only [hgd]
    exact parseFold_lookup_mem entries [] nm d hnd hmem rfl

/-- Two server entries, one valid and one failing `MCPServerConfig`
validation (it has both `command` and `url`). -/
def entries0 : List (String × Json) :=
  [("good", .obj [("command", .str "/usr/bin/python3")]),
   ("bad", .obj [("command", .str "python"), ("url", .str "http://x")])]

theorem C7_read_configuration_witness :
    read_configuration .gemini ⟨true, none⟩ = ⟨[]⟩ ∧
    dictGet? (read_configuration .gemini
        ⟨true, some (.val (.obj [("mcpServers", .obj entries0)]))⟩).servers
      (some "good") =
      (parseServerEntry (.obj [("command", .str "/usr/bin/python3")])).toOption ∧
    (parseServerEntry (.obj [("command", .str "/usr/bin/python3")])).toOption =
      some { command := some "/usr/bin/python3" } ∧
    dictGet? (read_configuration .gemini
        ⟨true, some (.val (.obj [("mcpServers", .obj entries0)]))⟩).servers
      (some "bad") =
      (parseServerEntry (.obj [("command", .str "python"), ("url", .str "http://x")])).toOption ∧
    (parseServerEntry
        (.obj [("command", .str "python"), ("url", .str "http://x")])).toOption = none := by
  refine ⟨(C7_read_configuration .gemini ⟨true, none⟩ [] [] "" .null).1 (Or.inr rfl),
    (C7_read_configuration .gemini ⟨true, none⟩ [("mcpServers", .obj entries0)] entries0
      "good" (.obj [("command", .str "/usr/bin/python3")])).2 rfl (by decide)
      (List.mem_cons_self _ _),
    rfl,
    (C7_read_configuration .gemini ⟨true, none⟩ [("mcpServers", .obj entries0)] entries0
      "bad" (.obj [("command", .str "python"), ("url", .str "http://x")])).2 rfl (by decide)
      (List.mem_cons_of_mem _ (List.mem_cons_self _ _)),
    rfl⟩

/-- C8: `configure_server`, `remove_server` and `sync_environment_to_hosts`
never let an exception escape (the model's `.error` case never occurs: every
operation returns `.ok`), and every `ConfigurationResult` they return — the
per-host results of a sync included — satisfies the invariant
`success=false → error_message is non-empty`. -/
theorem C8_results_invariant (w : World) (sc : MCPServerConfig) (n hostname : String)
    (nb : Bool) (env : EnvironmentData) (targets : Option (List String)) :
    (∃ r w', configure_server w sc hostname nb = .ok (r, w') ∧ resInv r) ∧
    (∃ r w', remove_server w n hostname nb = .ok (r, w') ∧ resInv r) ∧
    (∃ res w', sync_environment_to_hosts w env targets nb = .ok (res, w') ∧
      ∀ r ∈ res.results, resInv r) := by
  refine ⟨?_, ?_, ?_⟩
  · cases hht : hostTypeOfString hostname with
    | error e =>
      have hne := hostTypeOfString_error_ne_empty hht
      refine ⟨{ success := false, hostname := hostname, server_name := none,
                backup_created := false, backup_path := none, error_message := some e },
              w, ?_, fun _ => ⟨e, rfl, hne⟩⟩
      simp only [configure_server, hht, excHandler_eq hne]
    | ok ht =>
      by_cases hv : validate_server_config ht sc = false
      · obtain ⟨r, heq, hinv, _, _⟩ := tryResult_spec hostname none w false none false none
          (some ("Server configuration invalid for " ++ hostname))
        refine ⟨r, w, ?_, hinv⟩
        simp only [configure_server, hht]
        rw [if_pos hv]
        exact heq
      · obtain ⟨r, w', heq, hinv, _, _⟩ := configure_attempt_spec w sc hostname ht nb
        refine ⟨r, w', ?_, hinv⟩
        simp only [configure_server, hht]
        rw [if_neg hv]
        exact heq
  · cases hht : hostTypeOfString hostname with
    | error e =>
      have hne := hostTypeOfString_error_ne_empty hht
      refine ⟨{ success := false, hostname := hostname, server_name := some n,
                backup_created := false, backup_path := none, error_message := some e },
              w, ?_, fun _ => ⟨e, rfl, hne⟩⟩
      simp only [remove_server, hht, excHandler_eq hne]
    | ok ht =>
      by_cases habs : dictHasKey (read_configuration ht (w.fs ht)).servers (some n) = false
      · obtain ⟨r, heq, hinv, _, _⟩ := tryResult_spec hostname (some n) w false (some n)
          false none
          (some ("Server '" ++ n ++ "' not found in " ++ hostname ++ " configuration"))
        refine ⟨r, w, ?_, hinv⟩
        simp only [remove_server, hht]
        rw [if_pos habs]
        exact heq
      · obtain ⟨r, heq, hinv, _, _⟩ := tryResult_spec hostname (some n)
          (w.setFS ht (write_configuration ht (w.fs ht) (w.writeOk ht)
            ((read_configuration ht (w.fs ht)).remove_server (some n)).2).2)
          (write_configuration ht (w.fs ht) (w.writeOk ht)
            ((read_configuration ht (w.fs ht)).remove_server (some n)).2).1
          (some n) (backupStep w ht nb).isSome (backupStep w ht nb) none
        refine ⟨r, (w.setFS ht (write_configuration ht (w.fs ht) (w.writeOk ht)
          ((read_configuration ht (w.fs ht)).remove_server (some n)).2).2), ?_, hinv⟩
        simp only [remove_server, hht]
        rw [if_neg habs]
        exact heq
  · obtain ⟨res, w', hok, _, _, hall⟩ := sync_spec w env targets nb
    exact ⟨res, w', hok, hall⟩

end Hatch
